import Mathlib

/-!
Verification of the statistical analysis and multi-sensor fusion core of
glowbarn-rs. Rust f64 arithmetic is embedded as exact rational arithmetic:
additions, multiplications, divisions and comparisons are mapped to the
corresponding operations on the rationals, the 1e-10 epsilon guards of the
source are kept literally, and the few transcendental primitives
(f64::sqrt, f64::ln, f64::log2, f64::exp) are embedded either as the
executable rational square root below (exact on perfect squares, which is
all the concrete series used here need) or as explicit function parameters
about which each theorem assumes only the properties of the real function
that the proof needs (such as log 1 = 0).
-/

namespace Glowbarn

/-- Numeric guard used throughout the Rust sources as the literal 1e-10. -/
def eps : ℚ := 1 / 10 ^ 10

/-- Rational counterpart of f64::sqrt. It is exact on every rational whose
numerator and denominator are perfect squares; all concrete inputs used in
the theorems below have perfect-square variances, so the embedding is exact
on the paths the theorems evaluate. -/
def sqrtQ (q : ℚ) : ℚ := (Nat.sqrt q.num.toNat : ℚ) / (Nat.sqrt q.den : ℚ)

/-- Sensor type enumeration from src/src/sensors/traits.rs (SensorType). -/
inductive SensorType where
  | ThermalImager | ThermalArray | Thermistor | Pyrometer
  | Geophone | Accelerometer | Seismograph | Piezoelectric
  | EMFProbe | TriField | GaussMeter | FluxGate | SQUIDMagnetometer
  | Ultrasonic | Infrasound | FullSpectrum | ParabolicMic | ContactMic | MicArray
  | Barometer | Hygrometer | Anemometer | IonCounter | VOCSensor | ParticulateSensor
  | GeigerCounter | Scintillator | NeutronDetector | DosimeterArray
  | LightMeter | UVSensor | IRDetector | Spectrometer | LiDAR | LaserGrid | NightVision
  | SDRReceiver | SpectrumAnalyzer | WiFiScanner | EMIDetector
  | CapacitiveSensor | StaticMeter | FieldMill | CurrentClamp
  | IonChamber | CoronaDetector | PlasmaProbe
  | QRNG | ThermalNoise | ShotNoise | ZenerDiode
  | Custom (id : ℕ)

/-- Constructor code of a sensor type; used to give SensorType a
linear-size decidable equality (the derived instance is quadratic in the
number of variants). -/
def SensorType.code : SensorType → ℕ × ℕ
  | .ThermalImager => (0, 0)
  | .ThermalArray => (1, 0)
  | .Thermistor => (2, 0)
  | .Pyrometer => (3, 0)
  | .Geophone => (4, 0)
  | .Accelerometer => (5, 0)
  | .Seismograph => (6, 0)
  | .Piezoelectric => (7, 0)
  | .EMFProbe => (8, 0)
  | .TriField => (9, 0)
  | .GaussMeter => (10, 0)
  | .FluxGate => (11, 0)
  | .SQUIDMagnetometer => (12, 0)
  | .Ultrasonic => (13, 0)
  | .Infrasound => (14, 0)
  | .FullSpectrum => (15, 0)
  | .ParabolicMic => (16, 0)
  | .ContactMic => (17, 0)
  | .MicArray => (18, 0)
  | .Barometer => (19, 0)
  | .Hygrometer => (20, 0)
  | .Anemometer => (21, 0)
  | .IonCounter => (22, 0)
  | .VOCSensor => (23, 0)
  | .ParticulateSensor => (24, 0)
  | .GeigerCounter => (25, 0)
  | .Scintillator => (26, 0)
  | .NeutronDetector => (27, 0)
  | .DosimeterArray => (28, 0)
  | .LightMeter => (29, 0)
  | .UVSensor => (30, 0)
  | .IRDetector => (31, 0)
  | .Spectrometer => (32, 0)
  | .LiDAR => (33, 0)
  | .LaserGrid => (34, 0)
  | .NightVision => (35, 0)
  | .SDRReceiver => (36, 0)
  | .SpectrumAnalyzer => (37, 0)
  | .WiFiScanner => (38, 0)
  | .EMIDetector => (39, 0)
  | .CapacitiveSensor => (40, 0)
  | .StaticMeter => (41, 0)
  | .FieldMill => (42, 0)
  | .CurrentClamp => (43, 0)
  | .IonChamber => (44, 0)
  | .CoronaDetector => (45, 0)
  | .PlasmaProbe => (46, 0)
  | .QRNG => (47, 0)
  | .ThermalNoise => (48, 0)
  | .ShotNoise => (49, 0)
  | .ZenerDiode => (50, 0)
  | .Custom id => (51, id)

/-- Left inverse of the constructor code. -/
def SensorType.ofCode : ℕ × ℕ → SensorType
  | (0, _) => .ThermalImager
  | (1, _) => .ThermalArray
  | (2, _) => .Thermistor
  | (3, _) => .Pyrometer
  | (4, _) => .Geophone
  | (5, _) => .Accelerometer
  | (6, _) => .Seismograph
  | (7, _) => .Piezoelectric
  | (8, _) => .EMFProbe
  | (9, _) => .TriField
  | (10, _) => .GaussMeter
  | (11, _) => .FluxGate
  | (12, _) => .SQUIDMagnetometer
  | (13, _) => .Ultrasonic
  | (14, _) => .Infrasound
  | (15, _) => .FullSpectrum
  | (16, _) => .ParabolicMic
  | (17, _) => .ContactMic
  | (18, _) => .MicArray
  | (19, _) => .Barometer
  | (20, _) => .Hygrometer
  | (21, _) => .Anemometer
  | (22, _) => .IonCounter
  | (23, _) => .VOCSensor
  | (24, _) => .ParticulateSensor
  | (25, _) => .GeigerCounter
  | (26, _) => .Scintillator
  | (27, _) => .NeutronDetector
  | (28, _) => .DosimeterArray
  | (29, _) => .LightMeter
  | (30, _) => .UVSensor
  | (31, _) => .IRDetector
  | (32, _) => .Spectrometer
  | (33, _) => .LiDAR
  | (34, _) => .LaserGrid
  | (35, _) => .NightVision
  | (36, _) => .SDRReceiver
  | (37, _) => .SpectrumAnalyzer
  | (38, _) => .WiFiScanner
  | (39, _) => .EMIDetector
  | (40, _) => .CapacitiveSensor
  | (41, _) => .StaticMeter
  | (42, _) => .FieldMill
  | (43, _) => .CurrentClamp
  | (44, _) => .IonChamber
  | (45, _) => .CoronaDetector
  | (46, _) => .PlasmaProbe
  | (47, _) => .QRNG
  | (48, _) => .ThermalNoise
  | (49, _) => .ShotNoise
  | (50, _) => .ZenerDiode
  | (_, id) => .Custom id

/-- The code determines the sensor type. -/
def SensorType.ofCode_code : ∀ t : SensorType, SensorType.ofCode t.code = t := fun t => by
  cases t <;> rfl

instance : DecidableEq SensorType := fun a b =>
  if h : a.code = b.code then
    Decidable.isTrue (by
      rw [← SensorType.ofCode_code a, ← SensorType.ofCode_code b, h])
  else Decidable.isFalse (fun he => h (by rw [he]))

/-- Dempster-Shafer belief mass, struct BeliefMass in
src/src/detection/fusion.rs: masses for the anomaly hypothesis, the normal
hypothesis and complete uncertainty. -/
structure BeliefMass where
  anomaly : ℚ
  normal : ℚ
  uncertainty : ℚ
deriving DecidableEq

/-- FusionEngine::combine_belief_masses: Dempster's rule of combination.
The conflict k is the mass assigned to contradictory pairs, and the
renormalizer (1 - k) is guarded from below by eps before the division. -/
def combineBeliefMasses (m1 m2 : BeliefMass) : BeliefMass :=
  let k := m1.anomaly * m2.normal + m1.normal * m2.anomaly
  let normalizer := max (1 - k) eps
  { anomaly := (m1.anomaly * m2.anomaly + m1.anomaly * m2.uncertainty +
      m1.uncertainty * m2.anomaly) / normalizer
    normal := (m1.normal * m2.normal + m1.normal * m2.uncertainty +
      m1.uncertainty * m2.normal) / normalizer
    uncertainty := m1.uncertainty * m2.uncertainty / normalizer }

/-- One sensor reading as the three fusion strategies consume it: the
anomaly score produced by FusionEngine::calculate_anomaly_score (a sigmoid
of the max-deviation z-score scaled by the quality field, hence a value in
[0, 1]) and the reliability weight obtained from the sensor_weights table
(with default 0.5 for unknown types). The fusion loops below are embedded
from the source verbatim over these two per-reading quantities. -/
structure FReading where
  score : ℚ
  weight : ℚ
deriving DecidableEq

/-- One Bayes update step of FusionEngine::bayesian_fusion: the posterior
is updated by the reading evidence when the evidence exceeds eps, then
blended with the prior by the sensor reliability weight. -/
def bayesStep (priorAnomaly : ℚ) (posterior : ℚ) (r : FReading) : ℚ :=
  let likelihoodAnomaly := r.score
  let likelihoodNormal := 1 - r.score
  let evidence := likelihoodAnomaly * posterior + likelihoodNormal * (1 - posterior)
  let p := if eps < evidence then likelihoodAnomaly * posterior / evidence else posterior
  p * r.weight + priorAnomaly * (1 - r.weight)

/-- Confidence field of the FusionResult returned by
FusionEngine::bayesian_fusion: 0 on the empty batch, otherwise the final
posterior after folding the Bayes update over all readings. -/
def bayesianFusionConfidence (readings : List FReading) (priorAnomaly : ℚ) : ℚ :=
  if readings.isEmpty then 0
  else readings.foldl (bayesStep priorAnomaly) priorAnomaly

/-- The belief mass FusionEngine::dempster_shafer_fusion derives from one
reading: anomaly mass score times weight, normal mass the complement score
times weight, and uncertainty the complement of the weight. -/
def dsMass (r : FReading) : BeliefMass :=
  { anomaly := r.score * r.weight
    normal := (1 - r.score) * r.weight
    uncertainty := 1 - r.weight }

/-- The final normalization step of FusionEngine::dempster_shafer_fusion:
divide all three masses by their total when the total exceeds eps. -/
def dsNormalize (m : BeliefMass) : BeliefMass :=
  let total := m.anomaly + m.normal + m.uncertainty
  if eps < total then
    { anomaly := m.anomaly / total
      normal := m.normal / total
      uncertainty := m.uncertainty / total }
  else m

/-- Confidence field of the FusionResult returned by
FusionEngine::dempster_shafer_fusion: fold Dempster combination starting
from complete uncertainty, normalize, then anomaly over (anomaly + normal)
with the denominator guarded from below by eps. -/
def dempsterShaferFusionConfidence (readings : List FReading) : ℚ :=
  if readings.isEmpty then 0
  else
    let combined := readings.foldl (fun acc r => combineBeliefMasses acc (dsMass r))
      { anomaly := 0, normal := 0, uncertainty := 1 }
    let c := dsNormalize combined
    c.anomaly / max (c.anomaly + c.normal) eps

/-- Confidence field of the FusionResult returned by
FusionEngine::weighted_fusion: the reliability-weighted average of the
anomaly scores, 0 when the weight sum does not exceed eps. -/
def weightedFusionConfidence (readings : List FReading) : ℚ :=
  if readings.isEmpty then 0
  else
    let weightedSum := (readings.map (fun r => r.score * r.weight)).sum
    let weightSum := (readings.map (fun r => r.weight)).sum
    if eps < weightSum then weightedSum / weightSum else 0

/-- The initial sensor reliability-weight table built by FusionEngine::new,
in insertion order. -/
def defaultWeights : List (SensorType × ℚ) :=
  [(SensorType.ThermalImager, 85/100), (SensorType.ThermalArray, 80/100),
   (SensorType.Accelerometer, 75/100), (SensorType.Geophone, 80/100),
   (SensorType.EMFProbe, 70/100), (SensorType.FluxGate, 85/100),
   (SensorType.Infrasound, 75/100), (SensorType.Ultrasonic, 75/100),
   (SensorType.GeigerCounter, 90/100), (SensorType.QRNG, 80/100),
   (SensorType.SDRReceiver, 70/100), (SensorType.LaserGrid, 95/100)]

/-- HashMap::insert on the weight table: replace the value when the key is
present, append the pair otherwise. -/
def insertWeight (tbl : List (SensorType × ℚ)) (st : SensorType) (w : ℚ) :
    List (SensorType × ℚ) :=
  if tbl.any (fun p => p.1 == st) then
    tbl.map (fun p => if p.1 = st then (st, w) else p)
  else tbl ++ [(st, w)]

/-- FusionEngine::set_sensor_weight: the argument is clamped to [0, 1]
before insertion, f64::clamp written out. -/
def setSensorWeight (tbl : List (SensorType × ℚ)) (st : SensorType) (w : ℚ) :
    List (SensorType × ℚ) :=
  insertWeight tbl st (if w < 0 then 0 else if 1 < w then 1 else w)

/-- Anomaly kind enumeration from src/src/analysis/anomaly.rs (AnomalyType). -/
inductive AnomalyType where
  | PointAnomaly | ContextualAnomaly | CollectiveAnomaly | ChangePoint
  | Spike | Drop | Drift | Oscillation
deriving DecidableEq

/-- A detected anomaly, struct Anomaly in src/src/analysis/anomaly.rs. -/
structure Anomaly where
  index : ℕ
  value : ℚ
  score : ℚ
  anomalyType : AnomalyType
  confidence : ℚ
deriving DecidableEq

/-- Insert x into a run, after every element y with le y x: the insertion
step of a stable sort (elements comparing equal keep their input order). -/
def insertStable (le : α → α → Bool) (x : α) : List α → List α
  | [] => [x]
  | y :: ys => if le y x then y :: insertStable le x ys else x :: y :: ys

/-- Stable insertion sort: the embedding of the Rust stable slice sorts
(sort_by and sort_by_key). For any total preorder the stable sorted
permutation is unique, so this agrees with the source merge sort. -/
def sortStable (le : α → α → Bool) (l : List α) : List α :=
  l.foldl (fun acc x => insertStable le x acc) []

/-- AnomalyDetector::deduplicate_anomalies: stable sort by index, then
retain keeps, for each index, the first anomaly in that order (the HashSet
insert returns false on a repeated index). Note the function comment in
the source says the highest-scoring anomaly per index is kept; the
implementation keeps the first one pushed. -/
def deduplicateAnomalies (l : List Anomaly) : List Anomaly :=
  let sorted := sortStable (fun a b => decide (a.index ≤ b.index)) l
  (sorted.foldl (fun (acc : List Anomaly × List ℕ) a =>
    if a.index ∈ acc.2 then acc else (acc.1 ++ [a], acc.2 ++ [a.index])) ([], [])).1

/-- The merge policy at the end of AnomalyDetector::detect: the four
detector result lists (statistical, isolation forest, cusum, lof) are
concatenated in that order into the argument, deduplicated, then sorted in
descending score order. -/
def mergeAnomalies (l : List Anomaly) : List Anomaly :=
  sortStable (fun a b => decide (b.score ≤ a.score)) (deduplicateAnomalies l)

/-- AnomalyDetector::std_dev (the same formula is also used by the entropy
analyzer): 0 for fewer than two samples, else the square root of the
sample variance with the n - 1 denominator. -/
def stdDev (data : List ℚ) : ℚ :=
  if data.length < 2 then 0
  else
    let n : ℚ := data.length
    let mean := data.sum / n
    let variance := (data.map (fun x => (x - mean) ^ 2)).sum / (n - 1)
    sqrtQ variance

/-- The per-sample loop of AnomalyDetector::detect_cusum, threading the
sample index and the two one-sided cumulative sums: each sum is updated
with the slack k, and a side whose sum crosses the decision interval h
emits a ChangePoint anomaly (score the overshoot ratio, confidence that
ratio capped at 1) and resets to 0; the positive side is checked before
the negative side, as in the source. -/
def cusumLoop (mean k h : ℚ) (i : ℕ) (pos neg : ℚ) : List ℚ → List Anomaly
  | [] => []
  | x :: rest =>
    let cp := max (pos + x - mean - k) 0
    let cn := max (neg - x + mean - k) 0
    let posEmit : List Anomaly :=
      if h < cp then
        [{ index := i, value := x, score := cp / h,
           anomalyType := AnomalyType.ChangePoint, confidence := min (cp / h) 1 }]
      else []
    let negEmit : List Anomaly :=
      if h < cn then
        [{ index := i, value := x, score := cn / h,
           anomalyType := AnomalyType.ChangePoint, confidence := min (cn / h) 1 }]
      else []
    let cp2 := if h < cp then 0 else cp
    let cn2 := if h < cn then 0 else cn
    posEmit ++ negEmit ++ cusumLoop mean k h (i + 1) cp2 cn2 rest

/-- AnomalyDetector::detect_cusum: two-sided CUSUM over the window mean and
standard deviation, slack k = 0.5 sigma, decision interval h = 5 sigma,
both accumulators starting at 0. Windows shorter than 20 samples or with
standard deviation below eps contribute nothing. -/
def detectCusum (data : List ℚ) : List Anomaly :=
  if data.length < 20 then []
  else
    let n : ℚ := data.length
    let mean := data.sum / n
    let std := stdDev data
    if std < eps then []
    else cusumLoop mean ((1 / 2) * std) (5 * std) 0 0 0 data

/-- One entry of a correlator rolling buffer, struct TimestampedReading in
src/src/detection/correlation.rs; timestamps are in milliseconds and the
anomaly score is the stored output of quick_anomaly_score. -/
structure BufferedReading where
  timestamp : ℤ
  value : ℚ
  sensorType : SensorType
  anomalyScore : ℚ
deriving DecidableEq

/-- One sensor contribution of a correlation or fusion result, struct
SensorContribution in src/src/detection/mod.rs; sensor identities are
embedded as natural numbers. -/
structure SensorContribution where
  sensorId : ℕ
  sensorType : SensorType
  weight : ℚ
  readingValue : ℚ
  anomalyScore : ℚ
deriving DecidableEq

/-- A detected correlation event, struct CorrelationEvent in
src/src/detection/correlation.rs. -/
structure CorrelationEvent where
  timestamp : ℤ
  sensors : List SensorContribution
  confidence : ℚ
  lagMs : ℤ
deriving DecidableEq

/-- The sensor correlator state, struct SensorCorrelator: per-sensor
rolling buffers plus the configuration knobs; SensorCorrelator::new sets
buffer duration 10000 ms, minimum correlation 0.5 and correlation window
2000 ms. -/
structure Correlator where
  buffers : List (ℕ × List BufferedReading)
  bufferDurationMs : ℤ
  minCorrelation : ℚ
  correlationWindowMs : ℤ

/-- A correlator with the default configuration of SensorCorrelator::new
and the given buffers. -/
def mkCorrelator (buffers : List (ℕ × List BufferedReading)) : Correlator :=
  { buffers := buffers, bufferDurationMs := 10000,
    minCorrelation := 1 / 2, correlationWindowMs := 2000 }

/-- SensorCorrelator::get_sensor_weight, the fixed per-type table used for
correlation contributions. -/
def corrSensorWeight (st : SensorType) : ℚ :=
  match st with
  | SensorType.GeigerCounter | SensorType.LaserGrid => 95 / 100
  | SensorType.ThermalImager | SensorType.FluxGate => 85 / 100
  | SensorType.ThermalArray | SensorType.Geophone => 80 / 100
  | SensorType.Accelerometer | SensorType.Infrasound | SensorType.Ultrasonic => 75 / 100
  | SensorType.EMFProbe | SensorType.SDRReceiver => 70 / 100
  | _ => 60 / 100

/-- The collection loop at the start of SensorCorrelator::check_correlation:
for each buffer, walk from the most recent entry backwards, stop at the
first entry older than the window start, and keep entries whose stored
quick anomaly score exceeds 0.3. -/
def collectAnomalous (c : Correlator) (now : ℤ) : List (ℕ × BufferedReading) :=
  let windowStart := now - c.correlationWindowMs
  c.buffers.foldl (fun acc p =>
    acc ++ ((p.2.reverse.takeWhile (fun r => decide (windowStart ≤ r.timestamp))).filter
      (fun r => decide ((3 : ℚ) / 10 < r.anomalyScore))).map (fun r => (p.1, r))) []

/-- The number of distinct sensor identities among the collected anomalous
readings (the HashSet cardinality in check_correlation). -/
def uniqueSensorCount (c : Correlator) (now : ℤ) : ℕ :=
  ((collectAnomalous c now).map Prod.fst).dedup.length

/-- First element of a nonempty integer list folded through min, the
embedding of Iterator::min. -/
def listMinZ : List ℤ → Option ℤ
  | [] => none
  | t :: r => some (r.foldl min t)

/-- First element of a nonempty integer list folded through max, the
embedding of Iterator::max. -/
def listMaxZ : List ℤ → Option ℤ
  | [] => none
  | t :: r => some (r.foldl max t)

/-- The average stored anomaly score of the collected qualifying entries in
check_correlation. -/
def avgAnomalyScore (c : Correlator) (now : ℤ) : ℚ :=
  let anomalous := collectAnomalous c now
  ((anomalous.map (fun p => p.2.anomalyScore)).sum) / (anomalous.length : ℚ)

/-- The overall confidence computed by check_correlation: the 0.6/0.4
blend of average anomaly score and sensor diversity (distinct count over
5), with the whole sum capped at 1. -/
def corrConfidence (c : Correlator) (now : ℤ) : ℚ :=
  min (avgAnomalyScore c now * (6 / 10) + ((uniqueSensorCount c now : ℚ) / 5) * (4 / 10)) 1

/-- SensorCorrelator::check_correlation: collect buffered entries inside
the correlation window with quick anomaly score above 0.3, require at
least 2 distinct sensor identities, compute the blended confidence, and
report an event only when that confidence exceeds the configured minimum,
with the lag being the span between the earliest and latest qualifying
timestamps. -/
def checkCorrelation (c : Correlator) (now : ℤ) : Option CorrelationEvent :=
  let anomalous := collectAnomalous c now
  let uniqueCount := (anomalous.map Prod.fst).dedup.length
  if uniqueCount < 2 then none
  else
    let contributions : List SensorContribution := anomalous.map (fun p =>
      { sensorId := p.1, sensorType := p.2.sensorType,
        weight := corrSensorWeight p.2.sensorType,
        readingValue := p.2.value, anomalyScore := p.2.anomalyScore })
    let avgAnomaly := ((contributions.map (fun s => s.anomalyScore)).sum) /
      (contributions.length : ℚ)
    let sensorDiversity := (uniqueCount : ℚ) / 5
    let confidence := min (avgAnomaly * (6 / 10) + sensorDiversity * (4 / 10)) 1
    if c.minCorrelation < confidence then
      let timestamps := anomalous.map (fun p => p.2.timestamp)
      match listMinZ timestamps, listMaxZ timestamps with
      | some minTime, some maxTime =>
        some { timestamp := now, sensors := contributions,
               confidence := confidence, lagMs := maxTime - minTime }
      | _, _ => none
    else none

/-- Minimum of a rational list by left fold, the embedding of the
fold-with-f64-MAX-seed idiom of the sources on nonempty data. -/
def listMinQ : List ℚ → ℚ
  | [] => 0
  | x :: r => r.foldl min x

/-- Maximum of a rational list by left fold, the embedding of the
fold-with-f64-MIN-seed idiom of the sources on nonempty data. -/
def listMaxQ : List ℚ → ℚ
  | [] => 0
  | x :: r => r.foldl max x

/-- The 256-bin histogram shared by EntropyAnalyzer::shannon_entropy,
renyi_entropy and tsallis_entropy: the value range is guarded from below
by eps, each sample is mapped to the truncation of its scaled offset into
bin indices 0..255, and the result lists the occupancy count of each
nonempty bin (HashMap values in some order; the entropy sums below do not
depend on the order). -/
def histogramCounts (data : List ℚ) : List ℕ :=
  let mn := listMinQ data
  let mx := listMaxQ data
  let range := max (mx - mn) eps
  let bins := data.map (fun x => ⌊(x - mn) / range * 255⌋)
  bins.dedup.map (fun b => bins.count b)

/-- EntropyAnalyzer::shannon_entropy: the Shannon entropy of the 256-bin
histogram. The base-2 logarithm of f64 is the parameter log2q; theorems
assume of it only facts true of the real logarithm. -/
def shannonEntropy (log2q : ℚ → ℚ) (data : List ℚ) : ℚ :=
  let n : ℚ := data.length
  ((histogramCounts data).map (fun (count : ℕ) =>
    let p := (count : ℚ) / n
    if 0 < p then -p * log2q p else 0)).sum

/-- EntropyAnalyzer::renyi_entropy at alpha = 2 (the value the analyzer
passes): 1 / (1 - 2) times the base-2 logarithm of the sum of squared bin
probabilities; powf at the literal exponent 2 is the rational square. -/
def renyiEntropy2 (log2q : ℚ → ℚ) (data : List ℚ) : ℚ :=
  let n : ℚ := data.length
  let sumPAlpha := ((histogramCounts data).map (fun (count : ℕ) => ((count : ℚ) / n) ^ 2)).sum
  1 / (1 - 2) * log2q sumPAlpha

/-- EntropyAnalyzer::tsallis_entropy at q = 2 (the value the analyzer
passes): (1 minus the sum of squared bin probabilities) / (2 - 1). -/
def tsallisEntropy2 (data : List ℚ) : ℚ :=
  let n : ℚ := data.length
  let sumPQ := ((histogramCounts data).map (fun (count : ℕ) => ((count : ℚ) / n) ^ 2)).sum
  (1 - sumPQ) / (2 - 1)

/-- The m-length template match test shared by sample_entropy and phi:
no coordinate pair differs by more than r. -/
def matchM (data : List ℚ) (r : ℚ) (i j m : ℕ) : Bool :=
  (List.range m).all (fun k => decide (|data.getD (i + k) 0 - data.getD (j + k) 0| ≤ r))

/-- The index pairs i < j over 0..len visited by the sample_entropy double
loop. -/
def pairList (len : ℕ) : List (ℕ × ℕ) :=
  (List.range len).flatMap (fun i => ((List.range len).filter (fun j => i < j)).map
    (fun j => (i, j)))

/-- EntropyAnalyzer::sample_entropy: template-match counts at embedding
dimensions m and m + 1 over all pairs i < j, with tolerance r equal to
rMult times the sample standard deviation; returns 0 when the window is
shorter than m + 2 or when either count is zero, else the negated natural
logarithm (parameter lnq) of the count ratio. -/
def sampleEntropy (lnq : ℚ → ℚ) (data : List ℚ) (m : ℕ) (rMult : ℚ) : ℚ :=
  let n := data.length
  if n < m + 2 then 0
  else
    let r := rMult * stdDev data
    let pairs := pairList (n - m)
    let countM := (pairs.filter (fun p => matchM data r p.1 p.2 m)).length
    let countM1 := (pairs.filter (fun p => matchM data r p.1 p.2 m &&
      decide (p.1 + m < n) && decide (p.2 + m < n) &&
      decide (|data.getD (p.1 + m) 0 - data.getD (p.2 + m) 0| ≤ r))).length
    if countM = 0 ∨ countM1 = 0 then 0
    else -lnq ((countM1 : ℚ) / (countM : ℚ))

/-- EntropyAnalyzer::phi, the correlation-sum average used by approximate
entropy: for each template the fraction of templates within tolerance r
(self-matches included), averaged through the natural logarithm. -/
def phi (lnq : ℚ → ℚ) (data : List ℚ) (m : ℕ) (rMult : ℚ) : ℚ :=
  let n := data.length
  if n < m then 0
  else
    let r := rMult * stdDev data
    let total := n - m + 1
    let cs := (List.range total).map (fun i =>
      ((List.range total).filter (fun j => matchM data r i j m)).length)
    ((cs.map (fun (count : ℕ) =>
      let c := (count : ℚ) / (total : ℚ)
      if 0 < c then lnq c else 0)).sum) / (total : ℚ)

/-- EntropyAnalyzer::approximate_entropy: phi at m minus phi at m + 1. -/
def approximateEntropy (lnq : ℚ → ℚ) (data : List ℚ) (m : ℕ) (rMult : ℚ) : ℚ :=
  phi lnq data m rMult - phi lnq data (m + 1) rMult

/-- The ordinal pattern at offset i in permutation_entropy: the indices
0..m stably sorted by the data values at i + a * delay (Rust sort_by with
partial_cmp, a stable ascending sort). -/
def ordinalPattern (data : List ℚ) (i delay m : ℕ) : List ℕ :=
  sortStable (fun a b => decide (data.getD (i + a * delay) 0 ≤ data.getD (i + b * delay) 0))
    (List.range m)

/-- EntropyAnalyzer::permutation_entropy: the ordinal-pattern distribution
entropy in natural log (parameter lnq), normalized by the log of m
factorial; 0 when the window is shorter than m * delay. -/
def permutationEntropy (lnq : ℚ → ℚ) (data : List ℚ) (m delay : ℕ) : ℚ :=
  if data.length < m * delay then 0
  else
    let nPatterns := data.length - (m - 1) * delay
    let pats := (List.range nPatterns).map (fun i => ordinalPattern data i delay m)
    let n : ℚ := nPatterns
    let maxEntropy := lnq (((List.range m).map (fun i => ((i + 1 : ℕ) : ℚ))).prod)
    let entropy := (pats.dedup.map (fun pat =>
      let p := (pats.count pat : ℚ) / n
      if 0 < p then -p * lnq p else 0)).sum
    entropy / maxEntropy

/-- StatisticalAnalyzer::percentile on an already sorted slice: linear
interpolation between the two neighbouring order statistics, with the
Rust floor and ceil casts to usize written out. -/
def percentile (sorted : List ℚ) (p : ℚ) : ℚ :=
  if sorted.isEmpty then 0
  else
    let k := p / 100 * ((sorted.length - 1 : ℕ) : ℚ)
    let f := ⌊k⌋.toNat
    let c := ⌈k⌉.toNat
    if f = c ∨ sorted.length ≤ c then sorted.getD (min f (sorted.length - 1)) 0
    else sorted.getD f 0 + (sorted.getD c 0 - sorted.getD f 0) * (k - (f : ℚ))

/-- Result record of Welch's t-test, struct TTestResult in
src/src/analysis/statistics.rs. -/
structure TTestResult where
  tStatistic : ℚ
  pValue : ℚ
  degreesOfFreedom : ℚ
  significant : Bool
deriving DecidableEq

/-- StatisticalAnalyzer::welch_t_test. The Student-t p-value machinery
(normal cdf, erf, beta, log-gamma approximations) is abstracted as the
parameter pFun taking the absolute t statistic and the degrees of freedom;
every theorem below holds for all pFun, and the n below 2 guard never
reaches it. -/
def welchTTest (pFun : ℚ → ℚ → ℚ) (s1 s2 : List ℚ) : TTestResult :=
  let n1 : ℚ := s1.length
  let n2 : ℚ := s2.length
  if n1 < 2 ∨ n2 < 2 then
    { tStatistic := 0, pValue := 1, degreesOfFreedom := 0, significant := false }
  else
    let mean1 := s1.sum / n1
    let mean2 := s2.sum / n2
    let var1 := (s1.map (fun x => (x - mean1) ^ 2)).sum / (n1 - 1)
    let var2 := (s2.map (fun x => (x - mean2) ^ 2)).sum / (n2 - 1)
    let se := sqrtQ (var1 / n1 + var2 / n2)
    if se < eps then
      { tStatistic := 0, pValue := 1, degreesOfFreedom := n1 + n2 - 2, significant := false }
    else
      let t := (mean1 - mean2) / se
      let df := (var1 / n1 + var2 / n2) ^ 2 /
        ((var1 / n1) ^ 2 / (n1 - 1) + (var2 / n2) ^ 2 / (n2 - 1))
      let p := pFun |t| df
      { tStatistic := t, pValue := p, degreesOfFreedom := df,
        significant := decide (p < 1 / 20) }

/-- Result record of the Mann-Whitney U test, struct UTestResult. -/
structure UTestResult where
  uStatistic : ℚ
  pValue : ℚ
  significant : Bool
deriving DecidableEq

/-- The rank-assignment loop of mann_whitney_test: walk the sorted values,
group a run of values within 1e-10 of the group head, and give every
member the average rank (i + j + 1) / 2 + 0.5 of the run from position i
to position j. -/
def assignRanks : List ℚ → ℕ → List ℚ
  | [], _ => []
  | v :: rest, i =>
    let t := (rest.takeWhile (fun x => decide (|x - v| < eps))).length + 1
    let j := i + t
    let avg := ((i + j + 1 : ℕ) : ℚ) / 2 + 1 / 2
    List.replicate t avg ++ assignRanks (rest.drop (t - 1)) j
termination_by l => l.length
decreasing_by
  simp only [List.length_drop, List.length_cons]
  omega

/-- StatisticalAnalyzer::mann_whitney_test. The normal cdf used for the
p-value approximation is the parameter normalCdf; every theorem below
holds for all normalCdf, and the n below 3 guard never reaches it. -/
def mannWhitneyTest (normalCdf : ℚ → ℚ) (s1 s2 : List ℚ) : UTestResult :=
  let n1 := s1.length
  let n2 := s2.length
  if n1 < 3 ∨ n2 < 3 then { uStatistic := 0, pValue := 1, significant := false }
  else
    let combined := sortStable (fun a b => decide (a.1 ≤ b.1))
      (s1.map (fun x => (x, (0 : ℕ))) ++ s2.map (fun x => (x, (1 : ℕ))))
    let ranks := assignRanks (combined.map Prod.fst) 0
    let r1 := (((combined.zip ranks).filter (fun q => q.1.2 = 0)).map
      (fun q => q.2)).sum
    let u1 := r1 - ((n1 * (n1 + 1) : ℕ) : ℚ) / 2
    let u2 := ((n1 * n2 : ℕ) : ℚ) - u1
    let u := min u1 u2
    let meanU := ((n1 * n2 : ℕ) : ℚ) / 2
    let stdU := sqrtQ (((n1 * n2 * (n1 + n2 + 1) : ℕ) : ℚ) / 12)
    let z := if eps < stdU then (u - meanU) / stdU else 0
    let p := 2 * normalCdf (-|z|)
    { uStatistic := u, pValue := p, significant := decide (p < 1 / 20) }

/-- Result record of the Kolmogorov-Smirnov test, struct KSTestResult. -/
structure KSTestResult where
  dStatistic : ℚ
  pValue : ℚ
  significant : Bool
deriving DecidableEq

/-- The alternating series loop of kolmogorov_p_value: nominally k up to
99, breaking after the first term below 1e-10 in magnitude; the f64 exp is
the parameter expq. -/
def ksSeriesSum (expq : ℚ → ℚ) (z : ℚ) : ℚ :=
  ((List.range 99).foldl (fun (s : ℚ × Bool) kk =>
    if s.2 then s
    else
      let k := kk + 1
      let term := expq (-2 * ((k : ℕ) : ℚ) ^ 2 * z * z)
      let sum := if k % 2 = 1 then s.1 + term else s.1 - term
      (sum, decide (|term| < eps))) ((0 : ℚ), false)).1

/-- StatisticalAnalyzer::kolmogorov_p_value: 1 below z = 0.27, 0 above
z = 3.5, twice the alternating series in between. -/
def kolmogorovPValue (expq : ℚ → ℚ) (z : ℚ) : ℚ :=
  if z < 27 / 100 then 1
  else if 7 / 2 < z then 0
  else 2 * ksSeriesSum expq z

/-- StatisticalAnalyzer::ks_test: the one-sample Kolmogorov-Smirnov test
of a sample against a caller-supplied theoretical cdf; the supremum
distance uses both one-sided empirical cdf values at each sorted sample
point. -/
def ksTest (expq : ℚ → ℚ) (sample : List ℚ) (cdf : ℚ → ℚ) : KSTestResult :=
  if sample.isEmpty then { dStatistic := 0, pValue := 1, significant := false }
  else
    let n := sample.length
    let sorted := sortStable (fun a b => decide (a ≤ b)) sample
    let dMax := sorted.enum.foldl (fun d q =>
      let fEmpirical := ((q.1 + 1 : ℕ) : ℚ) / (n : ℚ)
      let fPrev := ((q.1 : ℕ) : ℚ) / (n : ℚ)
      let fTheoretical := cdf q.2
      max d (max |fEmpirical - fTheoretical| |fPrev - fTheoretical|)) 0
    let sqrtN := sqrtQ (n : ℚ)
    let p := kolmogorovPValue expq (dMax * sqrtN)
    { dStatistic := dMax, pValue := p, significant := decide (p < 1 / 20) }

/-- A 100-sample stepped series: a flat baseline at 0 carrying zero-sum
noise of sample standard deviation exactly 100 (the four leading samples),
which jumps at index 50 to a flat level of 1000 = 10 times that baseline
standard deviation (the eight samples after the jump carry zero-sum noise
that makes the whole-series sample variance the perfect square 260100, so
the sqrtQ embedding of f64::sqrt is exact on it). -/
def cusumSeries : List ℚ :=
  [350, 350, -350, -350, 0, 0, 0, 0, 0, 0,
   0, 0, 0, 0, 0, 0, 0, 0, 0, 0,
   0, 0, 0, 0, 0, 0, 0, 0, 0, 0,
   0, 0, 0, 0, 0, 0, 0, 0, 0, 0,
   0, 0, 0, 0, 0, 0, 0, 0, 0, 0,
   1360, 640, 1018, 982, 1005, 995, 1001, 999, 1000, 1000,
   1000, 1000, 1000, 1000, 1000, 1000, 1000, 1000, 1000, 1000,
   1000, 1000, 1000, 1000, 1000, 1000, 1000, 1000, 1000, 1000,
   1000, 1000, 1000, 1000, 1000, 1000, 1000, 1000, 1000, 1000,
   1000, 1000, 1000, 1000, 1000, 1000, 1000, 1000, 1000, 1000]

/-- Correlator state with two distinct sensors whose single buffered
entries both carry quick anomaly score 0.31 at timestamp 0. -/
def corrTwoLow : Correlator :=
  mkCorrelator
    [(0, [{ timestamp := 0, value := 0, sensorType := SensorType.EMFProbe,
            anomalyScore := 31 / 100 }]),
     (1, [{ timestamp := 0, value := 0, sensorType := SensorType.EMFProbe,
            anomalyScore := 31 / 100 }])]

/-- Correlator state with six distinct sensors whose single buffered
entries all carry quick anomaly score 0.35 at timestamp 0. -/
def corrSixSensors : Correlator :=
  mkCorrelator ((List.range 6).map (fun i =>
    (i, [{ timestamp := 0, value := 0, sensorType := SensorType.EMFProbe,
           anomalyScore := 35 / 100 }])))

/-- The sensor contribution every entry of corrSixSensors produces. -/
def emfContribution (i : ℕ) : SensorContribution :=
  { sensorId := i, sensorType := SensorType.EMFProbe, weight := 70 / 100,
    readingValue := 0, anomalyScore := 35 / 100 }

/-- The correlation event check_correlation reports on corrSixSensors at
time 0. -/
def sixSensorEvent : CorrelationEvent :=
  { timestamp := 0, sensors := (List.range 6).map emfContribution,
    confidence := 69 / 100, lagMs := 0 }

/-! Helper lemmas shared by the claim theorems. -/

theorem eps_pos : (0 : ℚ) < eps := by norm_num [eps]

theorem sqrtQ_natCast (n : ℕ) : sqrtQ (n : ℚ) = Nat.sqrt n := by
  simp [sqrtQ, Rat.num_natCast, Rat.den_natCast]

theorem sqrtQ_zero : sqrtQ 0 = 0 := by
  simp [sqrtQ]

theorem foldl_min_replicate (c : ℚ) : ∀ k, (List.replicate k c).foldl min c = c := by
  intro k
  induction k with
  | zero => rfl
  | succ n ih => rw [List.replicate_succ, List.foldl_cons, min_self]; exact ih

theorem foldl_max_replicate (c : ℚ) : ∀ k, (List.replicate k c).foldl max c = c := by
  intro k
  induction k with
  | zero => rfl
  | succ n ih => rw [List.replicate_succ, List.foldl_cons, max_self]; exact ih

theorem listMinQ_replicate (L : ℕ) (c : ℚ) (h : 1 ≤ L) :
    listMinQ (List.replicate L c) = c := by
  cases L with
  | zero => omega
  | succ n => rw [List.replicate_succ, listMinQ, foldl_min_replicate]

theorem listMaxQ_replicate (L : ℕ) (c : ℚ) (h : 1 ≤ L) :
    listMaxQ (List.replicate L c) = c := by
  cases L with
  | zero => omega
  | succ n => rw [List.replicate_succ, listMaxQ, foldl_max_replicate]

theorem dedup_replicate (L : ℕ) (h : 1 ≤ L) {α : Type} [DecidableEq α] (a : α) :
    (List.replicate L a).dedup = [a] := by
  induction L with
  | zero => omega
  | succ n ih =>
    cases Nat.eq_or_lt_of_le h with
    | inl h1 => rw [← h1]; rfl
    | inr h1 =>
      have hn : 1 ≤ n := by omega
      rw [List.replicate_succ, List.dedup_cons_of_mem (List.mem_replicate.mpr ⟨by omega, rfl⟩)]
      exact ih hn

theorem getD_replicate {L idx : ℕ} (c : ℚ) (h : idx < L) :
    (List.replicate L c).getD idx 0 = c := by
  induction L generalizing idx with
  | zero => omega
  | succ n ih =>
    rw [List.replicate_succ]
    cases idx with
    | zero => rfl
    | succ m => exact ih (by omega)

theorem histogramCounts_replicate (L : ℕ) (c : ℚ) (h : 1 ≤ L) :
    histogramCounts (List.replicate L c) = [L] := by
  have hrange : max (c - c) eps = eps := by
    rw [sub_self]; exact max_eq_right eps_pos.le
  simp only [histogramCounts, listMinQ_replicate L c h, listMaxQ_replicate L c h, hrange,
    List.map_replicate, sub_self, zero_div, zero_mul, Int.floor_zero]
  rw [dedup_replicate L h]
  simp [List.count_replicate_self]

theorem stdDev_replicate (L : ℕ) (c : ℚ) : stdDev (List.replicate L c) = 0 := by
  simp only [stdDev, List.length_replicate]
  split
  · rfl
  · rename_i h
    have hLq : ((L : ℕ) : ℚ) ≠ 0 := Nat.cast_ne_zero.mpr (by omega)
    have hmean : (List.replicate L c).sum / ((L : ℕ) : ℚ) = c := by
      rw [List.sum_replicate, nsmul_eq_mul, mul_comm, mul_div_assoc, div_self hLq, mul_one]
    rw [hmean]
    simp [List.map_replicate, sqrtQ_zero]

theorem matchM_replicate {L i j m : ℕ} (c : ℚ) (r : ℚ) (hr : 0 ≤ r)
    (hi : i + m ≤ L) (hj : j + m ≤ L) :
    matchM (List.replicate L c) r i j m = true := by
  simp only [matchM, List.all_eq_true, List.mem_range, decide_eq_true_eq]
  intro k hk
  rw [getD_replicate c (by omega), getD_replicate c (by omega), sub_self, abs_zero]
  exact hr

theorem mem_pairList {len i j : ℕ} : (i, j) ∈ pairList len ↔ i < j ∧ j < len := by
  simp only [pairList, List.mem_flatMap, List.mem_map, List.mem_filter, List.mem_range,
    decide_eq_true_eq]
  constructor
  · rintro ⟨a, ha, b, ⟨hb, hab⟩, heq⟩
    rw [Prod.ext_iff] at heq
    obtain ⟨h1, h2⟩ := heq
    subst h1
    subst h2
    exact ⟨hab, hb⟩
  · rintro ⟨hij, hj⟩
    exact ⟨i, by omega, j, ⟨hj, hij⟩, rfl⟩

theorem bayesStep_bounds (prior p : ℚ) (r : FReading)
    (hpr0 : 0 ≤ prior) (hpr1 : prior ≤ 1) (hp0 : 0 ≤ p) (hp1 : p ≤ 1)
    (hs0 : 0 ≤ r.score) (hs1 : r.score ≤ 1) (hw0 : 0 ≤ r.weight) (hw1 : r.weight ≤ 1) :
    0 ≤ bayesStep prior p r ∧ bayesStep prior p r ≤ 1 := by
  simp only [bayesStep]
  set s := r.score with hsdef
  set w := r.weight with hwdef
  set q := if eps < s * p + (1 - s) * (1 - p) then s * p / (s * p + (1 - s) * (1 - p)) else p
    with hqdef
  have hq : 0 ≤ q ∧ q ≤ 1 := by
    rw [hqdef]
    split
    case isTrue hev =>
      have hevpos : 0 < s * p + (1 - s) * (1 - p) := lt_trans eps_pos hev
      refine ⟨div_nonneg (mul_nonneg hs0 hp0) hevpos.le, ?_⟩
      rw [div_le_one hevpos]
      nlinarith
    case isFalse _ => exact ⟨hp0, hp1⟩
  have h1 : q * w ≤ w := mul_le_of_le_one_left hw0 hq.2
  have h2 : prior * (1 - w) ≤ 1 - w := mul_le_of_le_one_left (by linarith) hpr1
  have h3 : 0 ≤ q * w := mul_nonneg hq.1 hw0
  have h4 : 0 ≤ prior * (1 - w) := mul_nonneg hpr0 (by linarith)
  constructor <;> linarith

theorem bayesFold_bounds (prior : ℚ) (hpr0 : 0 ≤ prior) (hpr1 : prior ≤ 1)
    (l : List FReading) :
    ∀ (p : ℚ), 0 ≤ p → p ≤ 1 →
      (∀ r ∈ l, (0 ≤ r.score ∧ r.score ≤ 1) ∧ (0 ≤ r.weight ∧ r.weight ≤ 1)) →
      0 ≤ l.foldl (bayesStep prior) p ∧ l.foldl (bayesStep prior) p ≤ 1 := by
  induction l with
  | nil => intro p hp0 hp1 _; simpa using ⟨hp0, hp1⟩
  | cons r t ih =>
    intro p hp0 hp1 hb
    have hr := hb r (List.mem_cons_self r t)
    have step := bayesStep_bounds prior p r hpr0 hpr1 hp0 hp1 hr.1.1 hr.1.2 hr.2.1 hr.2.2
    simpa [List.foldl_cons] using
      ih _ step.1 step.2 (fun x hx => hb x (List.mem_cons_of_mem _ hx))

theorem combine_nonneg (m1 m2 : BeliefMass)
    (h1 : 0 ≤ m1.anomaly ∧ 0 ≤ m1.normal ∧ 0 ≤ m1.uncertainty)
    (h2 : 0 ≤ m2.anomaly ∧ 0 ≤ m2.normal ∧ 0 ≤ m2.uncertainty) :
    0 ≤ (combineBeliefMasses m1 m2).anomaly ∧ 0 ≤ (combineBeliefMasses m1 m2).normal ∧
      0 ≤ (combineBeliefMasses m1 m2).uncertainty := by
  obtain ⟨ha1, hn1, hu1⟩ := h1
  obtain ⟨ha2, hn2, hu2⟩ := h2
  have hnorm : (0 : ℚ) < max (1 - (m1.anomaly * m2.normal + m1.normal * m2.anomaly)) eps :=
    lt_of_lt_of_le eps_pos (le_max_right _ _)
  simp only [combineBeliefMasses]
  refine ⟨div_nonneg ?_ hnorm.le, div_nonneg ?_ hnorm.le, div_nonneg ?_ hnorm.le⟩
  · have := mul_nonneg ha1 ha2
    have := mul_nonneg ha1 hu2
    have := mul_nonneg hu1 ha2
    linarith
  · have := mul_nonneg hn1 hn2
    have := mul_nonneg hn1 hu2
    have := mul_nonneg hu1 hn2
    linarith
  · exact mul_nonneg hu1 hu2

theorem dsFold_nonneg (l : List FReading)
    (hb : ∀ r ∈ l, (0 ≤ r.score ∧ r.score ≤ 1) ∧ (0 ≤ r.weight ∧ r.weight ≤ 1)) :
    ∀ (m : BeliefMass), 0 ≤ m.anomaly → 0 ≤ m.normal → 0 ≤ m.uncertainty →
      0 ≤ (l.foldl (fun acc r => combineBeliefMasses acc (dsMass r)) m).anomaly ∧
      0 ≤ (l.foldl (fun acc r => combineBeliefMasses acc (dsMass r)) m).normal ∧
      0 ≤ (l.foldl (fun acc r => combineBeliefMasses acc (dsMass r)) m).uncertainty := by
  induction l with
  | nil => intro m ha hn hu; simpa using ⟨ha, hn, hu⟩
  | cons r t ih =>
    intro m ha hn hu
    have hr := hb r (List.mem_cons_self r t)
    have hmass : 0 ≤ (dsMass r).anomaly ∧ 0 ≤ (dsMass r).normal ∧
        0 ≤ (dsMass r).uncertainty := by
      simp only [dsMass]
      exact ⟨mul_nonneg hr.1.1 hr.2.1,
        mul_nonneg (by linarith [hr.1.2]) hr.2.1, by linarith [hr.2.2]⟩
    have hc := combine_nonneg m (dsMass r) ⟨ha, hn, hu⟩ hmass
    have hrec := ih (fun x hx => hb x (List.mem_cons_of_mem _ hx))
    simpa [List.foldl_cons] using hrec _ hc.1 hc.2.1 hc.2.2

theorem dsNormalize_nonneg (m : BeliefMass)
    (ha : 0 ≤ m.anomaly) (hn : 0 ≤ m.normal) (hu : 0 ≤ m.uncertainty) :
    0 ≤ (dsNormalize m).anomaly ∧ 0 ≤ (dsNormalize m).normal ∧
      0 ≤ (dsNormalize m).uncertainty := by
  simp only [dsNormalize]
  split
  case isTrue htot =>
    have hpos : (0 : ℚ) < m.anomaly + m.normal + m.uncertainty := lt_trans eps_pos htot
    exact ⟨div_nonneg ha hpos.le, div_nonneg hn hpos.le, div_nonneg hu hpos.le⟩
  case isFalse _ => exact ⟨ha, hn, hu⟩

theorem dsConfidence_bounds (m : BeliefMass) (ha : 0 ≤ m.anomaly) (hn : 0 ≤ m.normal) :
    0 ≤ m.anomaly / max (m.anomaly + m.normal) eps ∧
      m.anomaly / max (m.anomaly + m.normal) eps ≤ 1 := by
  have hpos : (0 : ℚ) < max (m.anomaly + m.normal) eps :=
    lt_of_lt_of_le eps_pos (le_max_right _ _)
  refine ⟨div_nonneg ha hpos.le, ?_⟩
  rw [div_le_one hpos]
  calc m.anomaly ≤ m.anomaly + m.normal := by linarith
  _ ≤ max (m.anomaly + m.normal) eps := le_max_left _ _

theorem weightedSums_bounds (l : List FReading)
    (hb : ∀ r ∈ l, (0 ≤ r.score ∧ r.score ≤ 1) ∧ (0 ≤ r.weight ∧ r.weight ≤ 1)) :
    0 ≤ (l.map (fun r => r.score * r.weight)).sum ∧
      (l.map (fun r => r.score * r.weight)).sum ≤ (l.map (fun r => r.weight)).sum := by
  induction l with
  | nil => simp
  | cons r t ih =>
    have hr := hb r (List.mem_cons_self r t)
    have ht := ih (fun x hx => hb x (List.mem_cons_of_mem _ hx))
    simp only [List.map_cons, List.sum_cons]
    have h1 : r.score * r.weight ≤ r.weight := mul_le_of_le_one_left hr.2.1 hr.1.2
    have h2 : 0 ≤ r.score * r.weight := mul_nonneg hr.1.1 hr.2.1
    constructor <;> linarith [ht.1, ht.2]

theorem checkCorrelation_eq (c : Correlator) (now : ℤ) :
    checkCorrelation c now =
      if uniqueSensorCount c now < 2 then none
      else if c.minCorrelation < corrConfidence c now then
        match listMinZ ((collectAnomalous c now).map (fun p => p.2.timestamp)),
              listMaxZ ((collectAnomalous c now).map (fun p => p.2.timestamp)) with
        | some minTime, some maxTime =>
          some { timestamp := now,
                 sensors := (collectAnomalous c now).map (fun p =>
                   { sensorId := p.1, sensorType := p.2.sensorType,
                     weight := corrSensorWeight p.2.sensorType,
                     readingValue := p.2.value, anomalyScore := p.2.anomalyScore }),
                 confidence := corrConfidence c now,
                 lagMs := maxTime - minTime }
        | _, _ => none
      else none := by
  simp only [checkCorrelation, uniqueSensorCount, corrConfidence, avgAnomalyScore,
    List.map_map, Function.comp_def, List.length_map]

theorem getD_last_mem (l : List ℚ) (h : l ≠ []) : l.getD (l.length - 1) 0 ∈ l := by
  induction l with
  | nil => exact absurd rfl h
  | cons a t ih =>
    cases t with
    | nil => exact List.mem_singleton.mpr rfl
    | cons b u =>
      have hstep : (a :: b :: u).length - 1 = (b :: u).length := rfl
      rw [hstep]
      exact List.mem_cons_of_mem a (ih (List.cons_ne_nil b u))

theorem sorted_le_getD_last (l : List ℚ) (hs : l.Sorted (· ≤ ·)) :
    ∀ x ∈ l, x ≤ l.getD (l.length - 1) 0 := by
  induction l with
  | nil => intro x hx; exact absurd hx (List.not_mem_nil x)
  | cons a t ih =>
    intro x hx
    cases t with
    | nil =>
      rw [List.mem_singleton.mp hx]
      exact le_rfl
    | cons b u =>
      have hrec := ih (List.sorted_cons.mp hs).2
      have hstep : (a :: b :: u).getD ((a :: b :: u).length - 1) 0 =
          (b :: u).getD ((b :: u).length - 1) 0 := rfl
      rw [hstep]
      cases List.mem_cons.mp hx with
      | inl hxa =>
        subst hxa
        calc x ≤ b := (List.sorted_cons.mp hs).1 b (List.mem_cons_self b u)
        _ ≤ (b :: u).getD ((b :: u).length - 1) 0 :=
          hrec b (List.mem_cons_self b u)
      | inr hxt => exact hrec x hxt

theorem percentile_zero (l : List ℚ) (hne : l ≠ []) :
    percentile l 0 = l.getD 0 0 := by
  have hemp : l.isEmpty = false := by
    cases l with
    | nil => exact absurd rfl hne
    | cons a t => rfl
  simp only [percentile, hemp, Bool.false_eq_true, if_false]
  norm_num

theorem percentile_hundred (l : List ℚ) (hne : l ≠ []) :
    percentile l 100 = l.getD (l.length - 1) 0 := by
  have hemp : l.isEmpty = false := by
    cases l with
    | nil => exact absurd rfl hne
    | cons a t => rfl
  simp only [percentile, hemp, Bool.false_eq_true, if_false]
  have hk : (100 : ℚ) / 100 * ((l.length - 1 : ℕ) : ℚ) = ((l.length - 1 : ℕ) : ℚ) := by
    norm_num
  rw [hk, Int.floor_natCast, Int.ceil_natCast, Int.toNat_natCast]
  simp

theorem setSensorWeight_wf (tbl : List (SensorType × ℚ)) (st : SensorType) (w : ℚ)
    (h : ∀ p ∈ tbl, 0 ≤ p.2 ∧ p.2 ≤ 1) :
    ∀ p ∈ setSensorWeight tbl st w, 0 ≤ p.2 ∧ p.2 ≤ 1 := by
  intro p hp
  have hw2 : 0 ≤ (if w < 0 then (0:ℚ) else if 1 < w then 1 else w) ∧
      (if w < 0 then (0:ℚ) else if 1 < w then 1 else w) ≤ 1 := by
    split_ifs with h1 h2
    · exact ⟨le_rfl, zero_le_one⟩
    · exact ⟨zero_le_one, le_rfl⟩
    · constructor <;> linarith
  simp only [setSensorWeight, insertWeight] at hp
  split at hp
  · rw [List.mem_map] at hp
    obtain ⟨q, hq, heq⟩ := hp
    by_cases hqs : q.1 = st
    · rw [if_pos hqs] at heq
      rw [← heq]
      exact hw2
    · rw [if_neg hqs] at heq
      rw [← heq]
      exact h q hq
  · rw [List.mem_append] at hp
    cases hp with
    | inl hl => exact h p hl
    | inr hr =>
      rw [List.mem_singleton.mp hr]
      exact hw2

theorem defaultWeights_wf : ∀ p ∈ defaultWeights, 0 ≤ p.2 ∧ p.2 ≤ 1 := by
  intro p hp
  simp only [defaultWeights, List.mem_cons, List.not_mem_nil, or_false] at hp
  rcases hp with rfl | rfl | rfl | rfl | rfl | rfl | rfl | rfl | rfl | rfl | rfl | rfl <;>
    norm_num

theorem shannon_const (log2q : ℚ → ℚ) (L : ℕ) (c : ℚ) (hL : 1 ≤ L)
    (hlog : log2q 1 = 0) : shannonEntropy log2q (List.replicate L c) = 0 := by
  have hLq : ((L : ℕ) : ℚ) ≠ 0 := Nat.cast_ne_zero.mpr (by omega)
  simp only [shannonEntropy, histogramCounts_replicate L c hL, List.length_replicate,
    List.map_cons, List.map_nil, List.sum_cons, List.sum_nil]
  rw [div_self hLq]
  norm_num [hlog]

theorem renyi2_const (log2q : ℚ → ℚ) (L : ℕ) (c : ℚ) (hL : 1 ≤ L)
    (hlog : log2q 1 = 0) : renyiEntropy2 log2q (List.replicate L c) = 0 := by
  have hLq : ((L : ℕ) : ℚ) ≠ 0 := Nat.cast_ne_zero.mpr (by omega)
  simp only [renyiEntropy2, histogramCounts_replicate L c hL, List.length_replicate,
    List.map_cons, List.map_nil, List.sum_cons, List.sum_nil]
  rw [div_self hLq]
  norm_num [hlog]

theorem tsallis2_const (L : ℕ) (c : ℚ) (hL : 1 ≤ L) :
    tsallisEntropy2 (List.replicate L c) = 0 := by
  have hLq : ((L : ℕ) : ℚ) ≠ 0 := Nat.cast_ne_zero.mpr (by omega)
  simp only [tsallisEntropy2, histogramCounts_replicate L c hL, List.length_replicate,
    List.map_cons, List.map_nil, List.sum_cons, List.sum_nil]
  rw [div_self hLq]
  norm_num

theorem sample_const (lnq : ℚ → ℚ) (L : ℕ) (c : ℚ) (hln : lnq 1 = 0) :
    sampleEntropy lnq (List.replicate L c) 2 (1/5) = 0 := by
  simp only [sampleEntropy, List.length_replicate]
  split
  · rfl
  · rename_i hL4
    have hL : 4 ≤ L := by omega
    rw [stdDev_replicate, mul_zero]
    have hfull : ∀ p ∈ pairList (L - 2),
        matchM (List.replicate L c) 0 p.1 p.2 2 = true := by
      rintro ⟨i, j⟩ hp
      obtain ⟨hij, hjlen⟩ := mem_pairList.mp hp
      exact matchM_replicate c 0 le_rfl (by omega) (by omega)
    have hfull1 : ∀ p ∈ pairList (L - 2),
        (matchM (List.replicate L c) 0 p.1 p.2 2 && decide (p.1 + 2 < L) &&
          decide (p.2 + 2 < L) &&
          decide (|(List.replicate L c).getD (p.1 + 2) 0 -
            (List.replicate L c).getD (p.2 + 2) 0| ≤ 0)) = true := by
      rintro ⟨i, j⟩ hp
      obtain ⟨hij, hjlen⟩ := mem_pairList.mp hp
      have h1 : i + 2 < L := by omega
      have h2 : j + 2 < L := by omega
      rw [matchM_replicate c 0 le_rfl (by omega) (by omega),
        getD_replicate c h1, getD_replicate c h2, sub_self, abs_zero]
      simp [h1, h2]
    rw [List.filter_eq_self.mpr hfull, List.filter_eq_self.mpr hfull1]
    by_cases hN : (pairList (L - 2)).length = 0
    · rw [if_pos (Or.inl hN)]
    · rw [if_neg (by omega)]
      rw [div_self (Nat.cast_ne_zero.mpr hN), hln, neg_zero]

theorem phi_const (lnq : ℚ → ℚ) (L m : ℕ) (c : ℚ) (hln : lnq 1 = 0) :
    phi lnq (List.replicate L c) m (1/5) = 0 := by
  simp only [phi, List.length_replicate]
  split
  · rfl
  · rename_i hLm
    have hL : m ≤ L := by omega
    rw [stdDev_replicate, mul_zero]
    have htot : (L - m + 1 : ℕ) ≠ 0 := by omega
    have hcs : ∀ i ∈ List.range (L - m + 1),
        ((List.range (L - m + 1)).filter
          (fun j => matchM (List.replicate L c) 0 i j m)).length = L - m + 1 := by
      intro i hi
      rw [List.mem_range] at hi
      rw [List.filter_eq_self.mpr, List.length_range]
      intro j hj
      rw [List.mem_range] at hj
      exact matchM_replicate c 0 le_rfl (by omega) (by omega)
    rw [List.map_congr_left hcs]
    have hrw : (List.range (L - m + 1)).map (fun _ => (L - m + 1 : ℕ)) =
        List.replicate (L - m + 1) (L - m + 1 : ℕ) := by
      simp [List.map_const']
    rw [hrw, List.map_replicate, div_self (Nat.cast_ne_zero.mpr htot)]
    norm_num [hln, List.sum_replicate]

theorem approx_const (lnq : ℚ → ℚ) (L : ℕ) (c : ℚ) (hln : lnq 1 = 0) :
    approximateEntropy lnq (List.replicate L c) 2 (1/5) = 0 := by
  rw [approximateEntropy, phi_const lnq L 2 c hln, phi_const lnq L 3 c hln, sub_zero]

theorem ordinalPattern_const {L i : ℕ} (c : ℚ) (h2 : i + 2 < L) :
    ordinalPattern (List.replicate L c) i 1 3 = [0, 1, 2] := by
  have g0 : (List.replicate L c).getD (i + 0 * 1) 0 = c := getD_replicate c (by omega)
  have g1 : (List.replicate L c).getD (i + 1 * 1) 0 = c := getD_replicate c (by omega)
  have g2 : (List.replicate L c).getD (i + 2 * 1) 0 = c := getD_replicate c (by omega)
  have d01 : decide ((List.replicate L c).getD (i + 0 * 1) 0 ≤
      (List.replicate L c).getD (i + 1 * 1) 0) = true := by
    rw [g0, g1]; exact decide_eq_true le_rfl
  have d02 : decide ((List.replicate L c).getD (i + 0 * 1) 0 ≤
      (List.replicate L c).getD (i + 2 * 1) 0) = true := by
    rw [g0, g2]; exact decide_eq_true le_rfl
  have d12 : decide ((List.replicate L c).getD (i + 1 * 1) 0 ≤
      (List.replicate L c).getD (i + 2 * 1) 0) = true := by
    rw [g1, g2]; exact decide_eq_true le_rfl
  have hr3 : List.range 3 = [0, 1, 2] := rfl
  simp only [ordinalPattern, sortStable, hr3, List.foldl_cons, List.foldl_nil,
    insertStable, d01, d02, d12, if_true]

theorem perm_const (lnq : ℚ → ℚ) (L : ℕ) (c : ℚ) (hln : lnq 1 = 0) :
    permutationEntropy lnq (List.replicate L c) 3 1 = 0 := by
  simp only [permutationEntropy, List.length_replicate]
  split
  · rfl
  · rename_i hL3
    have hL : 3 ≤ L := by omega
    have e1 : L - (3 - 1) * 1 = L - 2 := by omega
    rw [e1]
    have hpat1 : ∀ i ∈ List.range (L - 2),
        ordinalPattern (List.replicate L c) i 1 3 = [0, 1, 2] := by
      intro i hi
      rw [List.mem_range] at hi
      exact ordinalPattern_const c (by omega)
    rw [List.map_congr_left hpat1, List.map_const', List.length_range]
    have hne : 1 ≤ L - 2 := by omega
    rw [dedup_replicate (L - 2) hne]
    simp only [List.map_cons, List.map_nil, List.count_replicate_self, List.sum_cons,
      List.sum_nil]
    rw [div_self (Nat.cast_ne_zero.mpr (by omega))]
    norm_num [hln]

theorem cusumSeries_take50 : List.take 50 cusumSeries =
    [350, 350, -350, -350, 0, 0, 0, 0, 0, 0,
     0, 0, 0, 0, 0, 0, 0, 0, 0, 0,
     0, 0, 0, 0, 0, 0, 0, 0, 0, 0,
     0, 0, 0, 0, 0, 0, 0, 0, 0, 0,
     0, 0, 0, 0, 0, 0, 0, 0, 0, 0] := rfl

set_option maxHeartbeats 2000000 in
set_option maxRecDepth 20000 in
theorem stdDev_cusumSeries_baseline : stdDev (List.take 50 cusumSeries) = 100 := by
  rw [cusumSeries_take50, stdDev]
  norm_num
  rw [show (10000 : ℚ) = ((10000 : ℕ) : ℚ) by norm_num, sqrtQ_natCast,
    show (10000 : ℕ) = 100 ^ 2 by norm_num, Nat.sqrt_eq']
  norm_num

set_option maxHeartbeats 2000000 in
set_option maxRecDepth 20000 in
theorem stdDev_cusumSeries : stdDev cusumSeries = 510 := by
  rw [stdDev]
  norm_num [cusumSeries]
  rw [show (260100 : ℚ) = ((260100 : ℕ) : ℚ) by norm_num, sqrtQ_natCast,
    show (260100 : ℕ) = 510 ^ 2 by norm_num, Nat.sqrt_eq']
  norm_num

set_option maxHeartbeats 4000000 in
set_option maxRecDepth 20000 in
theorem detectCusum_cusumSeries_eval :
    detectCusum cusumSeries =
      [{ index := 9, value := 0, score := 266/255,
         anomalyType := AnomalyType.ChangePoint, confidence := 1 },
       { index := 20, value := 0, score := 539/510,
         anomalyType := AnomalyType.ChangePoint, confidence := 1 },
       { index := 31, value := 0, score := 539/510,
         anomalyType := AnomalyType.ChangePoint, confidence := 1 },
       { index := 42, value := 0, score := 539/510,
         anomalyType := AnomalyType.ChangePoint, confidence := 1 },
       { index := 60, value := 1000, score := 539/510,
         anomalyType := AnomalyType.ChangePoint, confidence := 1 },
       { index := 71, value := 1000, score := 539/510,
         anomalyType := AnomalyType.ChangePoint, confidence := 1 },
       { index := 82, value := 1000, score := 539/510,
         anomalyType := AnomalyType.ChangePoint, confidence := 1 },
       { index := 93, value := 1000, score := 539/510,
         anomalyType := AnomalyType.ChangePoint, confidence := 1 }] := by
  rw [detectCusum]
  norm_num [stdDev_cusumSeries, eps]
  norm_num [cusumSeries, cusumLoop]

/-! The claim theorems. -/

/-- C1: for every non-empty batch of readings whose per-sensor anomaly
scores lie in [0, 1] and whose reliability weights lie in [0, 1], and a
prior anomaly probability in [0, 1] for the Bayesian strategy, the
confidence returned by each of the three fusion strategies
(bayesian_fusion, dempster_shafer_fusion, weighted_fusion) lies in
[0, 1]. -/
theorem C1_fusion_confidence_unit_interval (readings : List FReading) (priorAnomaly : ℚ)
    (hne : readings ≠ [])
    (hprior : 0 ≤ priorAnomaly ∧ priorAnomaly ≤ 1)
    (hbounds : ∀ r ∈ readings,
      (0 ≤ r.score ∧ r.score ≤ 1) ∧ (0 ≤ r.weight ∧ r.weight ≤ 1)) :
    (0 ≤ bayesianFusionConfidence readings priorAnomaly ∧
      bayesianFusionConfidence readings priorAnomaly ≤ 1) ∧
    (0 ≤ dempsterShaferFusionConfidence readings ∧
      dempsterShaferFusionConfidence readings ≤ 1) ∧
    (0 ≤ weightedFusionConfidence readings ∧ weightedFusionConfidence readings ≤ 1) := by
  have hemp : readings.isEmpty = false := by
    cases readings with
    | nil => exact absurd rfl hne
    | cons a t => rfl
  refine ⟨?_, ?_, ?_⟩
  · simp only [bayesianFusionConfidence, hemp, Bool.false_eq_true, if_false]
    exact bayesFold_bounds priorAnomaly hprior.1 hprior.2 readings priorAnomaly
      hprior.1 hprior.2 hbounds
  · simp only [dempsterShaferFusionConfidence, hemp, Bool.false_eq_true, if_false]
    have hfold := dsFold_nonneg readings hbounds
      { anomaly := 0, normal := 0, uncertainty := 1 } le_rfl le_rfl zero_le_one
    have hnorm := dsNormalize_nonneg _ hfold.1 hfold.2.1 hfold.2.2
    exact dsConfidence_bounds _ hnorm.1 hnorm.2.1
  · simp only [weightedFusionConfidence, hemp, Bool.false_eq_true, if_false]
    split
    case isTrue hws =>
      have hpos : (0 : ℚ) < (readings.map (fun r => r.weight)).sum := lt_trans eps_pos hws
      have hs := weightedSums_bounds readings hbounds
      exact ⟨div_nonneg hs.1 hpos.le, by rw [div_le_one hpos]; exact hs.2⟩
    case isFalse _ => norm_num

/-- Witness for C1 at the single reading with score 1/2, weight 1/2 and
prior 1/2. -/
theorem C1_fusion_confidence_unit_interval_witness :
    (0 ≤ bayesianFusionConfidence [{ score := 1/2, weight := 1/2 }] (1/2) ∧
      bayesianFusionConfidence [{ score := 1/2, weight := 1/2 }] (1/2) ≤ 1) ∧
    (0 ≤ dempsterShaferFusionConfidence [{ score := 1/2, weight := 1/2 }] ∧
      dempsterShaferFusionConfidence [{ score := 1/2, weight := 1/2 }] ≤ 1) ∧
    (0 ≤ weightedFusionConfidence [{ score := 1/2, weight := 1/2 }] ∧
      weightedFusionConfidence [{ score := 1/2, weight := 1/2 }] ≤ 1) :=
  C1_fusion_confidence_unit_interval [{ score := 1/2, weight := 1/2 }] (1/2) (by simp)
    (by norm_num) (by intro r hr; simp at hr; subst hr; norm_num)

/-- C2 fails as stated: the belief masses (1, 0, 0) and (0, 1, 0) have
components in [0, 1] and each sums to 1, yet they are in full conflict
(k = 1), the renormalizer bottoms out at the eps floor, and the combined
mass is (0, 0, 0), whose component sum 0 is not within 1e-9 of 1. -/
theorem C2_full_conflict_counterexample :
    (combineBeliefMasses { anomaly := 1, normal := 0, uncertainty := 0 }
      { anomaly := 0, normal := 1, uncertainty := 0 }) =
      { anomaly := 0, normal := 0, uncertainty := 0 } ∧
    ¬ |((0 : ℚ) + 0 + 0) - 1| ≤ 1 / 10 ^ 9 := by
  constructor
  · norm_num [combineBeliefMasses, eps]
  · norm_num

/-- C2 amended: combining two belief masses with components in [0, 1] that
each sum to 1 yields components summing exactly to 1 (in particular within
1e-9), provided the conflict k = m1.anomaly * m2.normal +
m1.normal * m2.anomaly is at most 1 - 1e-10; at larger conflict the eps
floor of the renormalizer makes the sum fall short of 1, as the
counterexample shows. -/
theorem C2_combine_masses_sum_one (m1 m2 : BeliefMass)
    (h1b : 0 ≤ m1.anomaly ∧ m1.anomaly ≤ 1 ∧ 0 ≤ m1.normal ∧ m1.normal ≤ 1 ∧
      0 ≤ m1.uncertainty ∧ m1.uncertainty ≤ 1)
    (h2b : 0 ≤ m2.anomaly ∧ m2.anomaly ≤ 1 ∧ 0 ≤ m2.normal ∧ m2.normal ≤ 1 ∧
      0 ≤ m2.uncertainty ∧ m2.uncertainty ≤ 1)
    (h1 : m1.anomaly + m1.normal + m1.uncertainty = 1)
    (h2 : m2.anomaly + m2.normal + m2.uncertainty = 1)
    (hk : m1.anomaly * m2.normal + m1.normal * m2.anomaly ≤ 1 - eps) :
    (combineBeliefMasses m1 m2).anomaly + (combineBeliefMasses m1 m2).normal +
      (combineBeliefMasses m1 m2).uncertainty = 1 := by
  unfold combineBeliefMasses
  set k := m1.anomaly * m2.normal + m1.normal * m2.anomaly with hkdef
  have hmax : max (1 - k) eps = 1 - k := max_eq_left (by linarith)
  have hkpos : (0 : ℚ) < 1 - k := lt_of_lt_of_le eps_pos (by linarith)
  simp only [hmax]
  rw [div_add_div_same, div_add_div_same]
  have hnum : m1.anomaly * m2.anomaly + m1.anomaly * m2.uncertainty +
      m1.uncertainty * m2.anomaly +
      (m1.normal * m2.normal + m1.normal * m2.uncertainty + m1.uncertainty * m2.normal) +
      m1.uncertainty * m2.uncertainty = 1 - k := by
    have hprod : (m1.anomaly + m1.normal + m1.uncertainty) *
        (m2.anomaly + m2.normal + m2.uncertainty) = 1 := by rw [h1, h2]; ring
    nlinarith [hprod]
  rw [hnum]
  exact div_self (ne_of_gt hkpos)

/-- Witness for C2: two moderately conflicting masses satisfy every
hypothesis and combine to a mass summing exactly to 1. -/
theorem C2_combine_masses_sum_one_witness :
    (combineBeliefMasses { anomaly := 1/2, normal := 3/10, uncertainty := 1/5 }
      { anomaly := 1/5, normal := 1/5, uncertainty := 3/5 }).anomaly +
    (combineBeliefMasses { anomaly := 1/2, normal := 3/10, uncertainty := 1/5 }
      { anomaly := 1/5, normal := 1/5, uncertainty := 3/5 }).normal +
    (combineBeliefMasses { anomaly := 1/2, normal := 3/10, uncertainty := 1/5 }
      { anomaly := 1/5, normal := 1/5, uncertainty := 3/5 }).uncertainty = 1 :=
  C2_combine_masses_sum_one _ _ (by norm_num) (by norm_num) (by norm_num) (by norm_num)
    (by norm_num [eps])

/-- C3 at the failing input from the claim itself: two detectors report an
anomaly at the same index 3, the first pushed (statistical) with score
2.0 and a later detector with score 5.0. The merge of detect retains the
FIRST pushed anomaly, the one with score 2.0, not the highest-scoring
one: deduplicate_anomalies stably sorts by index and its retain keeps the
first entry per index, contradicting both the specification and the
comment in the source, which says the highest-scoring anomaly per index
is kept. -/
theorem C3_merge_keeps_first_at_failing_input :
    mergeAnomalies
      [{ index := 3, value := 100, score := 2, anomalyType := AnomalyType.Spike,
         confidence := 9/10 },
       { index := 3, value := 100, score := 5, anomalyType := AnomalyType.ContextualAnomaly,
         confidence := 95/100 }] =
      [{ index := 3, value := 100, score := 2, anomalyType := AnomalyType.Spike,
         confidence := 9/10 }] := by
  norm_num [mergeAnomalies, deduplicateAnomalies, sortStable, insertStable]

/-- C4 fails as stated: cusumSeries is a 100-sample series, flat at 0 up
to index 49 apart from zero-sum noise whose sample standard deviation is
exactly 100, that jumps at index 50 by +1000 = 10 baseline standard
deviations to a flat level averaging 1000. (With sigma read as the
whole-series standard deviation the scenario is unsatisfiable: a
two-level step of a the length-100 series reaches at most about 2 sigma,
and no two-level series with the jump at index 50 reaches 10 sigma, so
the baseline reading is the one the scenario admits.) detect_cusum emits
EIGHT ChangePoint anomalies, at indices 9, 20, 31, 42, 60, 71, 82 and 93,
not exactly one near index 50: because the mean and sigma are global, the
persistent level offset re-accumulates after every reset on both sides of
the jump. -/
theorem C4_stepped_series_counterexample :
    cusumSeries.length = 100 ∧
    stdDev (List.take 50 cusumSeries) = 100 ∧
    (List.take 50 cusumSeries).sum = 0 ∧
    (List.drop 50 cusumSeries).sum / 50 = 1000 ∧
    (detectCusum cusumSeries).map (fun a => a.index) = [9, 20, 31, 42, 60, 71, 82, 93] ∧
    ¬ (detectCusum cusumSeries).length = 1 := by
  refine ⟨by norm_num [cusumSeries], stdDev_cusumSeries_baseline,
    by rw [cusumSeries_take50]; norm_num, by norm_num [cusumSeries], ?_, ?_⟩
  · rw [detectCusum_cusumSeries_eval]
    simp
  · rw [detectCusum_cusumSeries_eval]
    simp

/-- C4 amended: on the stepped series the post-crossing reset does
prevent a ChangePoint at every subsequent sample - successive alarms are
at least 11 samples apart - but it does not limit the output to a single
ChangePoint near the jump: all eight emitted anomalies are ChangePoints
at indices 9, 20, 31, 42, 60, 71, 82, 93, recurring on both sides of the
jump because the mean and sigma are computed over the whole window. -/
theorem C4_cusum_reset_no_consecutive_alarms :
    (detectCusum cusumSeries).map (fun a => a.index) = [9, 20, 31, 42, 60, 71, 82, 93] ∧
    (∀ a ∈ detectCusum cusumSeries, a.anomalyType = AnomalyType.ChangePoint) ∧
    List.Chain' (fun i j => i + 11 ≤ j) ((detectCusum cusumSeries).map (fun a => a.index)) := by
  rw [detectCusum_cusumSeries_eval]
  refine ⟨by simp, ?_, by simp [List.chain'_cons]⟩
  intro a ha
  simp only [List.mem_cons, List.not_mem_nil, or_false] at ha
  rcases ha with rfl | rfl | rfl | rfl | rfl | rfl | rfl | rfl <;> rfl

/-- C5 fails as stated: in corrTwoLow two distinct sensors have buffered
entries with quick anomaly score 0.31 > 0.3 inside the window, yet
check_correlation returns None, because the computed confidence 0.346
does not exceed the configured minimum 0.5. -/
theorem C5_two_sensors_low_confidence_counterexample :
    uniqueSensorCount corrTwoLow 0 = 2 ∧
    corrConfidence corrTwoLow 0 = 173 / 500 ∧
    checkCorrelation corrTwoLow 0 = none := by
  refine ⟨?_, ?_, ?_⟩
  · norm_num [uniqueSensorCount, collectAnomalous, corrTwoLow, mkCorrelator]
  · norm_num [corrConfidence, avgAnomalyScore, uniqueSensorCount, collectAnomalous,
      corrTwoLow, mkCorrelator]
  · norm_num [checkCorrelation, collectAnomalous, corrTwoLow, mkCorrelator]

/-- C5 amended: check_correlation returns None whenever fewer than 2
distinct sensor identities have a qualifying buffered entry, and also
whenever the computed confidence does not exceed the configured minimum;
any reported event carries confidence above that minimum, and when at
least 2 distinct identities qualify and the computed confidence exceeds
the minimum an event is reported. -/
theorem C5_check_correlation_conditions (c : Correlator) (now : ℤ) :
    (uniqueSensorCount c now < 2 → checkCorrelation c now = none) ∧
    (∀ e, checkCorrelation c now = some e → c.minCorrelation < e.confidence) ∧
    (2 ≤ uniqueSensorCount c now → c.minCorrelation < corrConfidence c now →
      (checkCorrelation c now).isSome = true) := by
  rw [checkCorrelation_eq]
  by_cases h2 : uniqueSensorCount c now < 2
  · rw [if_pos h2]
    exact ⟨fun _ => rfl, fun e he => absurd he (by simp), fun hge _ => absurd h2 (by omega)⟩
  · rw [if_neg h2]
    have hne : collectAnomalous c now ≠ [] := by
      intro h
      exact h2 (by simp [uniqueSensorCount, h])
    by_cases hc : c.minCorrelation < corrConfidence c now
    · rw [if_pos hc]
      refine ⟨fun hlt => absurd hlt h2, ?_, ?_⟩
      · intro e he
        cases hA : collectAnomalous c now with
        | nil => exact absurd hA hne
        | cons a t =>
          rw [hA] at he
          simp only [List.map_cons, listMinZ, listMaxZ] at he
          obtain rfl := (Option.some_injective _ he).symm
          exact hc
      · intro _ _
        cases hA : collectAnomalous c now with
        | nil => exact absurd hA hne
        | cons a t => simp [hA, listMinZ, listMaxZ]
    · rw [if_neg hc]
      exact ⟨fun hlt => absurd hlt h2, fun e he => absurd he (by simp),
        fun _ hcc => absurd hcc hc⟩

/-- Witness for C5: the empty correlator state has no qualifying sensors,
so check_correlation returns None. -/
theorem C5_check_correlation_conditions_witness :
    checkCorrelation (mkCorrelator []) 0 = none :=
  (C5_check_correlation_conditions (mkCorrelator []) 0).1
    (by norm_num [uniqueSensorCount, collectAnomalous, mkCorrelator])

/-- C6: on every constant window of length at least 1, the Shannon, Renyi
(alpha 2), Tsallis (q 2), Sample, Approximate and Permutation entropies
all return their documented neutral value 0 exactly (hence no NaN or
infinity can arise); the abstracted logarithms are only assumed to vanish
at 1, which the real log2 and ln do. -/
theorem C6_entropy_constant_window_zero (log2q lnq : ℚ → ℚ) (L : ℕ) (c : ℚ) (hL : 1 ≤ L)
    (hlog : log2q 1 = 0) (hln : lnq 1 = 0) :
    shannonEntropy log2q (List.replicate L c) = 0 ∧
    renyiEntropy2 log2q (List.replicate L c) = 0 ∧
    tsallisEntropy2 (List.replicate L c) = 0 ∧
    sampleEntropy lnq (List.replicate L c) 2 (1/5) = 0 ∧
    approximateEntropy lnq (List.replicate L c) 2 (1/5) = 0 ∧
    permutationEntropy lnq (List.replicate L c) 3 1 = 0 :=
  ⟨shannon_const log2q L c hL hlog, renyi2_const log2q L c hL hlog,
   tsallis2_const L c hL, sample_const lnq L c hln, approx_const lnq L c hln,
   perm_const lnq L c hln⟩

/-- Witness for C6 at the constant window of five sevens, with a concrete
logarithm stand-in vanishing at 1. -/
theorem C6_entropy_constant_window_zero_witness :
    shannonEntropy (fun q => q - 1) (List.replicate 5 7) = 0 ∧
    renyiEntropy2 (fun q => q - 1) (List.replicate 5 7) = 0 ∧
    tsallisEntropy2 (List.replicate 5 7) = 0 ∧
    sampleEntropy (fun q => q - 1) (List.replicate 5 7) 2 (1/5) = 0 ∧
    approximateEntropy (fun q => q - 1) (List.replicate 5 7) 2 (1/5) = 0 ∧
    permutationEntropy (fun q => q - 1) (List.replicate 5 7) 3 1 = 0 :=
  C6_entropy_constant_window_zero (fun q => q - 1) (fun q => q - 1) 5 7 (by norm_num)
    (by norm_num) (by norm_num)

/-- C7 fails as stated: with six distinct qualifying sensors of average
anomaly score 0.35, the code reports confidence
min(0.6 avg + 0.4 (6 / 5), 1) = 0.69, while the formula of the claim,
with the diversity ratio capped at 1 before the blend, yields 0.61. -/
theorem C7_diversity_cap_counterexample :
    avgAnomalyScore corrSixSensors 0 = 35 / 100 ∧
    uniqueSensorCount corrSixSensors 0 = 6 ∧
    (checkCorrelation corrSixSensors 0).map (fun e => e.confidence) = some (69 / 100) ∧
    (69 / 100 : ℚ) ≠ 35 / 100 * (6 / 10) + 4 / 10 * min ((6 : ℚ) / 5) 1 := by
  refine ⟨?_, ?_, ?_, by norm_num⟩
  · norm_num [avgAnomalyScore, collectAnomalous, corrSixSensors, mkCorrelator,
      List.range_succ]
  · norm_num [uniqueSensorCount, collectAnomalous, corrSixSensors, mkCorrelator,
      List.range_succ]
  · norm_num [checkCorrelation, collectAnomalous, corrSixSensors, mkCorrelator,
      List.range_succ, corrSensorWeight, listMinZ, listMaxZ]

/-- C7 amended: every reported correlation event carries confidence
min(0.6 avg + 0.4 (distinct count / 5), 1) - the cap applies to the whole
blend, not to the diversity ratio - and a lag equal to the difference
between the latest and earliest qualifying entry timestamps. -/
theorem C7_correlation_event_confidence_and_lag (c : Correlator) (now : ℤ)
    (e : CorrelationEvent) (he : checkCorrelation c now = some e) :
    e.confidence = corrConfidence c now ∧
    e.lagMs = (listMaxZ ((collectAnomalous c now).map (fun p => p.2.timestamp))).getD 0 -
      (listMinZ ((collectAnomalous c now).map (fun p => p.2.timestamp))).getD 0 := by
  rw [checkCorrelation_eq] at he
  by_cases h2 : uniqueSensorCount c now < 2
  · rw [if_pos h2] at he
    exact absurd he (by simp)
  · rw [if_neg h2] at he
    by_cases hc : c.minCorrelation < corrConfidence c now
    · rw [if_pos hc] at he
      cases hA : collectAnomalous c now with
      | nil =>
        rw [hA] at he
        simp [listMinZ, listMaxZ] at he
      | cons a t =>
        rw [hA] at he
        simp only [List.map_cons, listMinZ, listMaxZ] at he
        obtain rfl := (Option.some_injective _ he).symm
        simp [listMinZ, listMaxZ, hA]
    · rw [if_neg hc] at he
      exact absurd he (by simp)

/-- Witness for C7: the six-sensor state reports the event with
confidence 0.69 and lag 0, matching the amended formula. -/
theorem C7_correlation_event_confidence_and_lag_witness :
    sixSensorEvent.confidence = corrConfidence corrSixSensors 0 ∧
    sixSensorEvent.lagMs =
      (listMaxZ ((collectAnomalous corrSixSensors 0).map (fun p => p.2.timestamp))).getD 0 -
      (listMinZ ((collectAnomalous corrSixSensors 0).map (fun p => p.2.timestamp))).getD 0 :=
  C7_correlation_event_confidence_and_lag corrSixSensors 0 sixSensorEvent
    (by norm_num [checkCorrelation, collectAnomalous, corrSixSensors, mkCorrelator,
      List.range_succ, corrSensorWeight, listMinZ, listMaxZ, sixSensorEvent,
      emfContribution])

/-- C8 fails as stated for the Kolmogorov-Smirnov test: on a one-element
sample (fewer than 2 samples) the test does not return the neutral
result; with the supplied theoretical cdf constantly 5 the scaled
statistic exceeds 3.5, so the p-value is 0 and the significance flag is
even true. (With a genuine cdf the one-sample p-value is a computed value
near 0.96, still not the neutral 1.) -/
theorem C8_ks_single_sample_counterexample :
    List.length [(0 : ℚ)] < 2 ∧
    ksTest (fun _ => 0) [0] (fun _ => 5) =
      { dStatistic := 5, pValue := 0, significant := true } ∧
    ({ dStatistic := 5, pValue := 0, significant := true } : KSTestResult) ≠
      { dStatistic := 0, pValue := 1, significant := false } := by
  refine ⟨by norm_num, ?_, by simp⟩
  norm_num [ksTest, sortStable, insertStable, kolmogorovPValue, sqrtQ, List.enum,
    List.enumFrom]

/-- C8 amended: Welch's t-test and the Mann-Whitney U-test return the
neutral result (p-value 1, not significant) whenever either sample has
fewer than 2 elements, for every p-value backend; the Kolmogorov-Smirnov
test returns its neutral result for the empty sample, but not for every
single-element sample, as the counterexample shows. -/
theorem C8_small_samples_neutral (pFun : ℚ → ℚ → ℚ) (normalCdf expq cdf : ℚ → ℚ)
    (s1 s2 : List ℚ) (h : s1.length < 2 ∨ s2.length < 2) :
    welchTTest pFun s1 s2 =
      { tStatistic := 0, pValue := 1, degreesOfFreedom := 0, significant := false } ∧
    mannWhitneyTest normalCdf s1 s2 =
      { uStatistic := 0, pValue := 1, significant := false } ∧
    ksTest expq [] cdf = { dStatistic := 0, pValue := 1, significant := false } := by
  refine ⟨?_, ?_, rfl⟩
  · have hq : ((s1.length : ℚ) < 2 ∨ (s2.length : ℚ) < 2) := by
      cases h with
      | inl h1 => exact Or.inl (by exact_mod_cast h1)
      | inr h1 => exact Or.inr (by exact_mod_cast h1)
    simp only [welchTTest]
    rw [if_pos hq]
  · have hn : (s1.length < 3 ∨ s2.length < 3) := by omega
    simp only [mannWhitneyTest]
    rw [if_pos hn]

/-- Witness for C8 with a one-element first sample and the empty second
sample. -/
theorem C8_small_samples_neutral_witness :
    welchTTest (fun _ _ => 0) [0] [] =
      { tStatistic := 0, pValue := 1, degreesOfFreedom := 0, significant := false } ∧
    mannWhitneyTest (fun _ => 0) [0] [] =
      { uStatistic := 0, pValue := 1, significant := false } ∧
    ksTest (fun _ => 0) [] (fun _ => 0) =
      { dStatistic := 0, pValue := 1, significant := false } :=
  C8_small_samples_neutral (fun _ _ => 0) (fun _ => 0) (fun _ => 0) (fun _ => 0)
    [0] [] (Or.inl (by norm_num))

/-- C9: on every non-empty sorted sequence the percentile function
returns the minimum element at p = 0 and the maximum element at p = 100:
the returned value is a member of the sequence bounding it from below,
respectively from above. -/
theorem C9_percentile_endpoints (l : List ℚ) (hne : l ≠ []) (hs : l.Sorted (· ≤ ·)) :
    (percentile l 0 ∈ l ∧ ∀ x ∈ l, percentile l 0 ≤ x) ∧
    (percentile l 100 ∈ l ∧ ∀ x ∈ l, x ≤ percentile l 100) := by
  constructor
  · rw [percentile_zero l hne]
    cases l with
    | nil => exact absurd rfl hne
    | cons a t =>
      rw [List.getD_cons_zero]
      refine ⟨List.mem_cons_self a t, ?_⟩
      intro x hx
      cases List.mem_cons.mp hx with
      | inl hxa => rw [hxa]
      | inr hxt => exact (List.sorted_cons.mp hs).1 x hxt
  · rw [percentile_hundred l hne]
    exact ⟨getD_last_mem l hne, sorted_le_getD_last l hs⟩

/-- Witness for C9 on the sorted sequence 1, 2, 3. -/
theorem C9_percentile_endpoints_witness :
    (percentile [1, 2, 3] 0 ∈ ([1, 2, 3] : List ℚ) ∧
      ∀ x ∈ ([1, 2, 3] : List ℚ), percentile [1, 2, 3] 0 ≤ x) ∧
    (percentile [1, 2, 3] 100 ∈ ([1, 2, 3] : List ℚ) ∧
      ∀ x ∈ ([1, 2, 3] : List ℚ), x ≤ percentile [1, 2, 3] 100) :=
  C9_percentile_endpoints [1, 2, 3] (by simp) (by norm_num [List.sorted_cons])

/-- C10: after any sequence of set_sensor_weight calls with arbitrary
rational weight arguments, every value stored in the reliability-weight
table lies in [0, 1]: the initial table of FusionEngine::new contains
only values in [0, 1] and set_sensor_weight clamps its argument before
inserting. -/
theorem C10_sensor_weights_unit_interval (ops : List (SensorType × ℚ)) :
    ∀ p ∈ ops.foldl (fun tbl op => setSensorWeight tbl op.1 op.2) defaultWeights,
      0 ≤ p.2 ∧ p.2 ≤ 1 := by
  suffices h : ∀ (l : List (SensorType × ℚ)) (tbl : List (SensorType × ℚ)),
      (∀ p ∈ tbl, 0 ≤ p.2 ∧ p.2 ≤ 1) →
      ∀ p ∈ l.foldl (fun tbl op => setSensorWeight tbl op.1 op.2) tbl,
        0 ≤ p.2 ∧ p.2 ≤ 1 by
    exact h ops defaultWeights defaultWeights_wf
  intro l
  induction l with
  | nil => intro tbl htbl; simpa using htbl
  | cons op t ih =>
    intro tbl htbl
    rw [List.foldl_cons]
    exact ih _ (setSensorWeight_wf tbl op.1 op.2 htbl)

/-- Witness for C10: setting a custom sensor weight to 7 stores the
clamped value 1, which lies in [0, 1]. -/
theorem C10_sensor_weights_unit_interval_witness :
    0 ≤ ((SensorType.Custom 0, (1 : ℚ)) : SensorType × ℚ).2 ∧
      ((SensorType.Custom 0, (1 : ℚ)) : SensorType × ℚ).2 ≤ 1 :=
  C10_sensor_weights_unit_interval [(SensorType.Custom 0, 7)] (SensorType.Custom 0, 1) (by
    simp only [List.foldl_cons, List.foldl_nil, setSensorWeight, insertWeight]
    rw [show (defaultWeights.any fun p => p.1 == SensorType.Custom 0) = false from by decide]
    norm_num [defaultWeights])

end Glowbarn
